import Mathlib

/-!
Verification development for the Maschine Mikro MK3 userspace driver.

Shallow embedding of the event-translation core found in
crates/driver/src/main.rs (the main_loop function) and
crates/driver/src/settings.rs.  The maschine_library crate (button
enumeration, light model, pad event types) is not part of the sources;
the definitions taken from it are modelled from the specification and
marked as such in their doc comments.
-/

namespace Maschine

/-- Modelled from the spec: Brightness is the totally ordered set
Off, Dim, Normal, Bright used by the light model (maschine_library is
not among the sources). -/
inductive Brightness
  | Off
  | Dim
  | Normal
  | Bright
deriving DecidableEq

/-- Modelled from the spec: PadColors is a small fixed palette
enumeration from maschine_library; only Off and Blue are used by the
driver core, the remaining variants stand for the rest of the palette. -/
inductive PadColors
  | Off
  | Red
  | Orange
  | Yellow
  | Green
  | Blue
  | Purple
  | White
deriving DecidableEq

/-- Modelled from the spec: the integer-to-color decoding used by the
inbound pad message; out-of-palette codes fall back to Off, matching
unwrap_or(PadColors::Off) at the call site in main.rs. -/
def PadColors.fromI32 (v : Int) : PadColors :=
  if v = 1 then .Red
  else if v = 2 then .Orange
  else if v = 3 then .Yellow
  else if v = 4 then .Green
  else if v = 5 then .Blue
  else if v = 6 then .Purple
  else if v = 7 then .White
  else .Off

/-- Modelled from the spec: the five pad event classes of
maschine_library. -/
inductive PadEventType
  | NoteOn
  | NoteOff
  | PressOn
  | PressOff
  | Aftertouch
deriving DecidableEq

/-- Modelled from the spec: the partial decoding of the high nibble of
the second tuple byte into a PadEventType; exactly the five event
classes decode, every other nibble value is unrecognized.  The concrete
nibble codes are representative (the library source is not available);
the claims checked here depend only on which decodes succeed, not on
the particular codes. -/
def PadEventType.fromU8 (v : Nat) : Option PadEventType :=
  if v = 0x10 then some .NoteOn
  else if v = 0x20 then some .NoteOff
  else if v = 0x30 then some .PressOn
  else if v = 0x40 then some .PressOff
  else if v = 0x50 then some .Aftertouch
  else none

/-- ButtonMode from settings.rs: Trigger (momentary) or Toggle
(latching). -/
inductive ButtonMode
  | Trigger
  | Toggle
deriving DecidableEq

/-- ButtonConfig from settings.rs: mode and optional exclusivity group.
The optional secondary controller-change number cc is read by main.rs
(and described by the spec) although the settings.rs revision in the
sources omits the field; it is modelled from the spec. -/
structure ButtonConfig where
  mode : ButtonMode
  group_id : Option Nat
  cc : Option Nat
deriving DecidableEq

/-- Settings from settings.rs, restricted to the fields the core
consumes. -/
structure Settings where
  notemaps : List Nat
  client_name : String
  port_name : String
  button_configs : List (String × ButtonConfig)

/-- Settings::validate from settings.rs. -/
def Settings.validate (s : Settings) : Except String Unit :=
  if s.notemaps.length ≠ 16 then .error "There should be 16 pads exactly"
  else if s.notemaps.any (fun x => 128 ≤ x) then .error "MIDI notes should be 0 to 127"
  else if s.client_name = "" then .error "Client name must not be empty"
  else if s.port_name = "" then .error "Port name must not be empty"
  else .ok ()

/-- Modelled from the spec: the debug names of the 41 variants of the
Buttons enumeration of maschine_library (the ControlIdentifier of the
spec).  The list is representative: the claims depend only on the
names being pairwise distinct and on Play and Stop being two distinct
identifiers, which holds for the real control list of the device. -/
def buttonNames : List String :=
  ["Maschine", "Star", "Browse", "Volume", "Swing", "Tempo", "Plugin",
   "Sampling", "LeftArrow", "RightArrow", "Pitch", "Mod", "Perform",
   "Notes", "Group", "Auto", "Lock", "NoteRepeat", "Restart", "Erase",
   "Tap", "Follow", "Play", "Rec", "Stop", "Shift", "FixedVel",
   "PadMode", "Keyboard", "Chords", "Step", "Scene", "Pattern",
   "Events", "Variation", "Duplicate", "Select", "Solo", "Mute",
   "EncoderPush", "EncoderTouch"]

/-- A physical button identifier: one of the 41 enumeration indices. -/
abbrev Button := Fin 41

/-- The debug-format name of a button, as produced by format with the
Debug formatter in main.rs. -/
def buttonName (b : Button) : String :=
  buttonNames.getD b.val ""

/-- ASCII lowercasing of a string, modelling Rust to_lowercase and the
lowercase side of eq_ignore_ascii_case on the ASCII-only names in use. -/
def lowerString (s : String) : String :=
  String.mk (s.data.map Char.toLower)

/-- Helper for splitting a character list at a separator. -/
def splitCharsAux (sep : Char) : List Char → List Char → List String
  | [], cur => [String.mk cur.reverse]
  | c :: rest, cur =>
    if c = sep then String.mk cur.reverse :: splitCharsAux sep rest []
    else splitCharsAux sep rest (c :: cur)

/-- Rust str::split on a single separator character: the list of
(possibly empty) segments. -/
def splitChar (sep : Char) (s : String) : List String :=
  splitCharsAux sep s.data []

/-- Rust str::trim_start_matches with a character pattern. -/
def trimLeading (sep : Char) (s : String) : String :=
  String.mk (s.data.dropWhile (fun c => c = sep))

/-- Digit-string parsing helper. -/
def parseDigits : List Char → Nat → Option Nat
  | [], acc => some acc
  | c :: rest, acc =>
    if c.isDigit then parseDigits rest (acc * 10 + (c.toNat - '0'.toNat))
    else none

/-- Rust str::parse::<usize>: an optional leading plus sign followed by
at least one decimal digit. -/
def parseUsize (s : String) : Option Nat :=
  match s.data with
  | [] => none
  | c :: rest =>
    if c = '+' then
      match rest with
      | [] => none
      | _ => parseDigits rest 0
    else parseDigits (c :: rest) 0

/-- button_from_name from main.rs: scan indices 0..41 and compare the
debug name with the incoming string, ignoring ASCII case. -/
def button_from_name (name : String) : Option Button :=
  (List.finRange 41).find? (fun b => lowerString (buttonName b) = lowerString name)

/-- The exact-name search used by the exclusivity reset loop in
main.rs (comparison of the debug format without case folding). -/
def buttonFromDebugName (name : String) : Option Button :=
  (List.finRange 41).find? (fun b => buttonName b = name)

/-- Modelled from the spec: the light snapshot of maschine_library,
with a brightness per button, a color and brightness per pad (array of
16) and the 25-element slider bar. -/
structure Lights where
  buttons : Button → Brightness
  pads : List (PadColors × Brightness)
  slider : List Brightness

/-- Lights::new: everything off. -/
def Lights.new : Lights :=
  ⟨fun _ => .Off, List.replicate 16 (.Off, .Off), List.replicate 25 .Off⟩

def Lights.get_button (l : Lights) (b : Button) : Brightness :=
  l.buttons b

def Lights.set_button (l : Lights) (b : Button) (v : Brightness) : Lights :=
  { l with buttons := fun x => if x = b then v else l.buttons x }

/-- Modelled from the spec: whether a button has an LED.  The spec
gives every addressable control a brightness entry, so this is the
constant true. -/
def Lights.button_has_light (_l : Lights) (_b : Button) : Bool :=
  true

/-- Lights::get_pad; an out-of-range index is an out-of-bounds access
in the 16-element pad array, surfaced here as none. -/
def Lights.get_pad (l : Lights) (i : Nat) : Option (PadColors × Brightness) :=
  l.pads.get? i

def Lights.set_pad (l : Lights) (i : Nat) (c : PadColors) (b : Brightness) : Lights :=
  { l with pads := l.pads.set i (c, b) }

def Lights.set_slider (l : Lights) (i : Nat) (b : Brightness) : Lights :=
  { l with slider := l.slider.set i b }

/-- The mutable state owned by main_loop: the toggle_states map (a
total map defaulting to false, mirroring entry(..).or_insert(false)),
the light snapshot, and the log of strings written to the screen by
the inbound screen-text handler. -/
structure DriverState where
  toggles : Button → Bool
  lights : Lights
  screen : List String

/-- The all-off initial state of main_loop. -/
def DriverState.init : DriverState :=
  ⟨fun _ => false, Lights.new, []⟩

/-- The outbound status address for a control: the namespace prefix
followed by the lowercased name. -/
def oscAddr (name : String) : String :=
  "/maschine/" ++ lowerString name

/-- Config lookup by the debug name of the button, as in main.rs
(button_configs.get with the formatted name as key).  The config table
is a hash map with unique keys; it is modelled as an association list
and looked up at the first matching key. -/
def lookupConfig (s : Settings) (name : String) : Option ButtonConfig :=
  (s.button_configs.find? (fun p => p.1 = name)).map (fun p => p.2)

/-- HashMap entry(group_id).or_insert(Vec::new()).push(name): append
the name to the entry of the group, creating the entry if absent. -/
def addToGroup (acc : List (Nat × List String)) (g : Nat) (name : String) :
    List (Nat × List String) :=
  match acc with
  | [] => [(g, [name])]
  | (g', ms) :: rest =>
    if g' = g then (g', ms ++ [name]) :: rest
    else (g', ms) :: addToGroup rest g name

/-- One step of the exclusive-group pre-processing loop of main_loop:
a config entry contributes its key to its group when it is a Toggle
with a group id. -/
def egStep (acc : List (Nat × List String)) (p : String × ButtonConfig) :
    List (Nat × List String) :=
  if p.2.mode = .Toggle then
    match p.2.group_id with
    | some g => addToGroup acc g p.1
    | none => acc
  else acc

/-- The exclusive_groups table built once before the loop (the source
iterates a hash map, whose order is unspecified; the model iterates the
config list in order, which fixes one admissible order). -/
def exclusiveGroups (s : Settings) : List (Nat × List String) :=
  s.button_configs.foldl egStep []

/-- exclusive_groups.get(group_id). -/
def lookupGroup (gs : List (Nat × List String)) (g : Nat) : Option (List String) :=
  (gs.find? (fun p => p.1 = g)).map (fun p => p.2)

/-- One iteration of the exclusivity reset loop of main_loop: a group
member other than the pressed button is located by its exact debug
name; when found, its toggle state is cleared, its light is switched
off and a zero status message for it is queued. -/
def resetOne (self : String) (acc : DriverState × List (String × Int)) (other : String) :
    DriverState × List (String × Int) :=
  if other = self then acc
  else
    match buttonFromDebugName other with
    | some ob =>
      ({ acc.1 with
          toggles := fun x => if x = ob then false else acc.1.toggles x,
          lights := acc.1.lights.set_button ob .Off },
       acc.2 ++ [(oscAddr other, 0)])
    | none => acc

/-- The exclusivity reset loop over all members of the pressed
button's group. -/
def resetMembers (st : DriverState) (members : List String) (self : String) :
    DriverState × List (String × Int) :=
  members.foldl (resetOne self) (st, [])

/-- Whether a brightness counts as lit (the current_light_state proxy
of main.rs: brightness different from Off). -/
def bnotOff (b : Brightness) : Bool :=
  if b = Brightness.Off then false else true

/-- Intermediate result of the per-mode part of the button body of
main_loop: the state after any group resets, the status messages sent
by the reset loop, the should_send_osc flag with its value, and the
optional target brightness for this button's light. -/
structure StepOut where
  st : DriverState
  groupEms : List (String × Int)
  send : Bool
  value : Int
  target : Option Brightness

/-- Result of processing one observed button state: the new driver
state, the outbound status messages (address, value) in send order,
and the outbound secondary controller-change messages (number, value). -/
structure ApplyOut where
  st : DriverState
  osc : List (String × Int)
  cc : List (Nat × Nat)

/-- The Trigger (momentary) arm of the mode match of main_loop: any
mismatch between the observed pressed state and the light-state proxy
emits the new value and retargets the light. -/
def triggerStep (st : DriverState) (is_pressed cls : Bool) : StepOut :=
  if is_pressed ≠ cls then
    ⟨st, [], true, if is_pressed then 1 else 0,
      some (if is_pressed then Brightness.Normal else Brightness.Off)⟩
  else ⟨st, [], false, 0, none⟩

/-- The body of the accepted-latch branch of the Toggle arm: flip the
stored boolean, run the exclusivity resets when the new value is true
and a group is configured, and target the Bright light. -/
def toggleAcceptStep (config : Option ButtonConfig) (groups : List (Nat × List String))
    (st : DriverState) (button : Button) (name : String) : StepOut :=
  let nw := ! st.toggles button
  let r : DriverState × List (String × Int) :=
    if nw then
      match config.bind ButtonConfig.group_id with
      | some gid =>
        match lookupGroup groups gid with
        | some members => resetMembers st members name
        | none => (st, [])
      | none => (st, [])
    else (st, [])
  let st2 : DriverState :=
    { r.1 with toggles := fun x => if x = button then nw else r.1.toggles x }
  ⟨st2, r.2, true, if nw then 1 else 0, some Brightness.Bright⟩

/-- The Toggle (latching) arm of the mode match of main_loop: a press
is accepted only while the light is not Bright; afterwards the
release-feedback check retargets the light to Dim or Off. -/
def toggleStep (config : Option ButtonConfig) (groups : List (Nat × List String))
    (st : DriverState) (button : Button) (name : String) (is_pressed cls : Bool) : StepOut :=
  let s1 : StepOut :=
    if is_pressed ∧ st.lights.get_button button ≠ Brightness.Bright then
      toggleAcceptStep config groups st button name
    else ⟨st, [], false, 0, none⟩
  let tgt2 : Option Brightness :=
    if ¬ is_pressed ∧ cls then
      some (if s1.st.toggles button then Brightness.Dim else Brightness.Off)
    else s1.target
  { s1 with target := tgt2 }

/-- The common tail of the per-button body: status-message emission,
secondary controller-change emission, and the light update guarded by
button_has_light. -/
def finishStep (config : Option ButtonConfig) (name : String) (button : Button)
    (step : StepOut) : ApplyOut :=
  let osc := step.groupEms ++ (if step.send then [(oscAddr name, step.value)] else [])
  let cc : List (Nat × Nat) :=
    match config.bind ButtonConfig.cc with
    | some n => if step.send then [(n, if step.value = 1 then 127 else 0)] else []
    | none => []
  let stF : DriverState :=
    match step.target with
    | some b =>
      if step.st.lights.button_has_light button then
        { step.st with lights := step.st.lights.set_button button b }
      else step.st
    | none => step.st
  ⟨stF, osc, cc⟩

/-- The per-button body of the control-frame loop of main_loop
(mode dispatch, latch bookkeeping, exclusivity resets, status and
controller-change emission, light update), for one button and one
observed pressed state. -/
def applyButton (s : Settings) (groups : List (Nat × List String))
    (st : DriverState) (button : Button) (is_pressed : Bool) : ApplyOut :=
  let name := buttonName button
  let config := lookupConfig s name
  let mode := (config.map ButtonConfig.mode).getD ButtonMode.Trigger
  let cls : Bool := bnotOff (st.lights.get_button button)
  finishStep config name button
    (match mode with
     | ButtonMode.Trigger => triggerStep st is_pressed cls
     | ButtonMode.Toggle => toggleStep config groups st button name is_pressed cls)

/-- A sequence of observed button transitions processed one after the
other, threading the driver state and collecting the outbound status
messages in order. -/
def runButtons (s : Settings) (evs : List (Button × Bool)) (st : DriverState) :
    DriverState × List (String × Int) :=
  match evs with
  | [] => (st, [])
  | e :: rest =>
    let o := applyButton s (exclusiveGroups s) st e.1 e.2
    let r := runButtons s rest o.st
    (r.1, o.osc ++ r.2)

/-- The fill index of the slider bar, computed in 32-bit signed
arithmetic in main.rs (all intermediate values are nonnegative for the
byte-range inputs that occur). -/
def sliderCnt (v : Int) : Int :=
  (v - 1 + 5) * 25 / 200 - 1

/-- Brightness of bar position i for fill index cnt: the match on
cnt - i of main.rs. -/
def sliderLed (cnt : Int) (i : Nat) : Brightness :=
  if cnt - (i : Int) = 0 then .Normal
  else if 1 ≤ cnt - (i : Int) ∧ cnt - (i : Int) ≤ 25 then .Dim
  else .Off

/-- The for-loop writing all 25 slider LEDs via set_slider. -/
def setSliderLoop (slider : List Brightness) (cnt : Int) : List Brightness :=
  (List.range 25).foldl (fun l i => l.set i (sliderLed cnt i)) slider

/-- The hardware slider handling of the control frame (main.rs lines
around the slider logic): when the raw byte is nonzero, emit the raw
level on the status protocol and rewrite the whole bar from the fill
index computed from the UNCLAMPED raw byte. -/
def hwSliderStep (st : DriverState) (raw : Nat) : DriverState × List (String × Int) :=
  if raw ≠ 0 then
    ({ st with lights := { st.lights with
        slider := setSliderLoop st.lights.slider (sliderCnt (raw : Int)) } },
     [("/maschine/slider", (raw : Int))])
  else (st, [])

/-- A ways a run of the pad-frame scanner can die: the unwrap on an
unrecognized event nibble (a Rust panic), or an out-of-bounds access
into the 16-element pad-light array or note map (a Rust panic). -/
inductive PadErr
  | badNibble (code : Nat)
  | padIndexOOB (idx : Nat)
deriving DecidableEq

/-- An outbound note event: note-on or note-off with key and velocity. -/
structure MidiNote where
  isOn : Bool
  key : Nat
  vel : Nat
deriving DecidableEq

/-- Byte i of the 64-byte report buffer. -/
def byteAt (buf : List Nat) (i : Nat) : Nat :=
  buf.getD i 0

/-- The 3-byte tuple starting at offset i of a pad frame: pad index,
event nibble (high 4 bits of the second byte) and the 12-bit value
packed from the low nibble of the second byte and the third byte. -/
def padTupleVal (buf : List Nat) (i : Nat) : Nat × Nat × Nat :=
  (byteAt buf i,
   byteAt buf (i + 1) &&& 0xf0,
   ((byteAt buf (i + 1) &&& 0x0f) <<< 8) + byteAt buf (i + 2))

/-- The tuple offsets visited by the scanner: (1..64).step_by(3). -/
def padPositions : List Nat :=
  (List.range 21).map (fun k => 3 * k + 1)

/-- The pad-frame scanning loop of main_loop: walk the 3-byte tuples,
stop at the first all-zero tuple after the first offset, decode the
event nibble with unwrap (an unrecognized nibble aborts the whole run),
update the pad light when the target brightness changed, index the note
map, floor the shifted velocity to 1 when the raw value is nonzero, and
collect the note events in order. -/
def processPadAt (notemaps : List Nat) (buf : List Nat) :
    List Nat → DriverState → Except PadErr (DriverState × List MidiNote)
  | [], st => .ok (st, [])
  | i :: rest, st =>
    let t := padTupleVal buf i
    let idx := t.1
    let evt := t.2.1
    let val := t.2.2
    if 1 < i ∧ idx = 0 ∧ evt = 0 ∧ val = 0 then .ok (st, [])
    else
      match PadEventType.fromU8 evt with
      | none => .error (.badNibble evt)
      | some pad_evt =>
        match st.lights.get_pad idx with
        | none => .error (.padIndexOOB idx)
        | some pb =>
          let b :=
            match pad_evt with
            | .NoteOn | .PressOn => Brightness.Normal
            | .NoteOff | .PressOff => Brightness.Off
            | .Aftertouch => if 0 < val then Brightness.Normal else Brightness.Off
          let st1 :=
            if pb.2 ≠ b then { st with lights := st.lights.set_pad idx .Blue b }
            else st
          match notemaps.get? idx with
          | none => .error (.padIndexOOB idx)
          | some note =>
            let vel0 := val >>> 5
            let velocity := if 0 < val ∧ vel0 = 0 then 1 else vel0
            let ev : Option MidiNote :=
              match pad_evt with
              | .NoteOn | .PressOn => some ⟨true, note, velocity⟩
              | .NoteOff | .PressOff => some ⟨false, note, velocity⟩
              | .Aftertouch => none
            match processPadAt notemaps buf rest st1 with
            | .ok r => .ok (r.1, ev.toList ++ r.2)
            | .error e => .error e

/-- Processing of one pad frame (selector byte 0x02). -/
def processPadFrame (notemaps : List Nat) (buf : List Nat) (st : DriverState) :
    Except PadErr (DriverState × List MidiNote) :=
  processPadAt notemaps buf padPositions st

/-- The tuple offsets the scanner actually processes before hitting the
terminator tuple. -/
def goodPositions (buf : List Nat) : List Nat → List Nat
  | [] => []
  | i :: rest =>
    let t := padTupleVal buf i
    if 1 < i ∧ t.1 = 0 ∧ t.2.1 = 0 ∧ t.2.2 = 0 then []
    else i :: goodPositions buf rest

/-- The processed (non-terminator) tuple offsets of a frame. -/
def processedPositions (buf : List Nat) : List Nat :=
  goodPositions buf padPositions

/-- Test-frame builder: a pad frame with the given (index, event
nibble code, 12-bit value) tuples, padded with zero bytes to the 64
bytes of the report buffer. -/
def mkPadFrame (ts : List (Nat × Nat × Nat)) : List Nat :=
  let body := (ts.map (fun t => [t.1, t.2.1 + t.2.2 / 256, t.2.2 % 256])).flatten
  (0x02 :: body) ++ List.replicate (64 - (1 + body.length)) 0

/-- One typed argument of an inbound status message. -/
inductive OscArg
  | int (v : Int)
  | str (s : String)
  | otherArg
deriving DecidableEq

/-- A decoded inbound status message: address and ordered arguments. -/
structure OscMsg where
  addr : String
  args : List OscArg
deriving DecidableEq

/-- One datagram as seen by the listener: either undecodable (or a
non-message packet), dropped silently, or a decoded message. -/
inductive Datagram
  | malformed
  | packet (m : OscMsg)
deriving DecidableEq

/-- The dispatch of the first inbound block of main_loop: the address
is split at slashes with empty segments dropped and matched against
slider, pad index, or a bare button name (case-insensitive). -/
def dispatch1 (st : DriverState) (m : OscMsg) : DriverState :=
  let parts := (splitChar '/' m.addr).filter (fun s => s ≠ "")
  match parts with
  | ["slider"] =>
    match m.args.head? with
    | some (.int v) =>
      let slider_val : Nat := min ((v % 256).toNat) 200
      { st with lights := { st.lights with
          slider := setSliderLoop st.lights.slider (sliderCnt (slider_val : Int)) } }
    | _ => st
  | ["pad", pad_str] =>
    match parseUsize pad_str with
    | some pad_id =>
      if pad_id < 16 then
        match m.args.get? 0, m.args.get? 1 with
        | some (.int color_val), some (.int brightness_val) =>
          let color := PadColors.fromI32 color_val
          let b : Brightness :=
            if brightness_val = 1 then .Dim
            else if brightness_val = 2 then .Normal
            else if brightness_val = 3 then .Bright
            else .Off
          { st with lights := st.lights.set_pad pad_id color b }
        | _, _ => st
      else st
    | none => st
  | [name] =>
    match button_from_name name with
    | some b =>
      match m.args.head? with
      | some (.int v) =>
        let nb : Brightness := if v = 1 then .Bright else .Off
        if st.lights.button_has_light b then
          { st with lights := st.lights.set_button b nb }
        else st
      | _ => st
    | none => st
  | _ => st

/-- The dispatch of the second inbound block of main_loop: the address
is split at slashes after stripping leading slashes (empty segments
kept); the screen-text address writes the string argument to the
screen; any address with at least two segments whose second segment
names a button sets that button's light directly. -/
def dispatch2 (st : DriverState) (m : OscMsg) : DriverState :=
  let parts := splitChar '/' (trimLeading '/' m.addr)
  let st :=
    if m.addr = "/maschine/screen/text" then
      match m.args.head? with
      | some (.str s) => { st with screen := st.screen ++ [s] }
      | _ => st
    else st
  if 2 ≤ parts.length then
    match button_from_name (parts.getD 1 "") with
    | some b =>
      match m.args.head? with
      | some (.int v) =>
        let nb : Brightness := if v = 1 then .Bright else .Off
        if st.lights.button_has_light b then
          { st with lights := st.lights.set_button b nb }
        else st
      | _ => st
    | none => st
  else st

/-- One non-blocking recv_from on the listener together with the body
of the surrounding match: a queued datagram is consumed and, when it
decodes, dispatched; an empty queue is the WouldBlock case. -/
def recvStep (dispatch : DriverState → OscMsg → DriverState)
    (st : DriverState) (q : List Datagram) : DriverState × List Datagram :=
  match q with
  | [] => (st, [])
  | d :: rest =>
    (match d with
     | .malformed => st
     | .packet m => dispatch st m, rest)

/-- The inbound segment of one tick of main_loop: exactly two
sequential recv_from blocks, the first with the slider/pad/bare-name
dispatch, the second with the screen-text/second-segment dispatch.
Returns the state and the datagrams still queued when the tick reaches
the light flush. -/
def inboundPhase (st : DriverState) (q : List Datagram) : DriverState × List Datagram :=
  let r1 := recvStep dispatch1 st q
  recvStep dispatch2 r1.1 r1.2

/-- The default 16-entry note map of settings.rs. -/
def defaultNotemaps : List Nat :=
  [49, 27, 31, 57, 48, 47, 43, 59, 36, 38, 46, 51, 36, 38, 42, 44]

/-- The Play button index in the modelled name table. -/
def playB : Button := (22 : Fin 41)

/-- The Stop button index in the modelled name table. -/
def stopB : Button := (24 : Fin 41)

/-- The configuration of the end-to-end scenario: Play and Stop both
latching in exclusivity group 1. -/
def playStopSettings : Settings :=
  { notemaps := defaultNotemaps,
    client_name := "Maschine Mikro MK3",
    port_name := "Maschine Mikro MK3 MIDI Out",
    button_configs :=
      [("Play", ⟨.Toggle, some 1, none⟩), ("Stop", ⟨.Toggle, some 1, none⟩)] }

/-- A configuration with an empty button table: every button defaults
to Trigger mode. -/
def triggerSettings : Settings :=
  { notemaps := defaultNotemaps,
    client_name := "Maschine Mikro MK3",
    port_name := "Maschine Mikro MK3 MIDI Out",
    button_configs := [] }

/-- The input sequence of the end-to-end scenario: Play pressed, Play
released, Stop pressed. -/
def c1events : List (Button × Bool) :=
  [(playB, true), (playB, false), (stopB, true)]

/-- Membership of a name in exclusivity group g: the config table has
an entry under this name whose mode is Toggle (Latching) and whose
group id is g.  This is the derived ExclusiveGroup mapping of the spec,
stated directly on the config table. -/
def memberOf (s : Settings) (g : Nat) (name : String) : Prop :=
  ∃ p ∈ s.button_configs, p.1 = name ∧ p.2.mode = ButtonMode.Toggle ∧ p.2.group_id = some g

/-- The at-most-one-latched-per-group invariant: any two members of
group g whose latch state is true are the same button. -/
def groupInv (s : Settings) (g : Nat) (st : DriverState) : Prop :=
  ∀ b1 b2 : Button, memberOf s g (buttonName b1) → memberOf s g (buttonName b2) →
    st.toggles b1 = true → st.toggles b2 = true → b1 = b2

/-- Three decoded slider datagrams queued on the listener at the start
of a tick. -/
def c3queue : List Datagram :=
  [Datagram.packet ⟨"/slider", [OscArg.int 10]⟩,
   Datagram.packet ⟨"/slider", [OscArg.int 20]⟩,
   Datagram.packet ⟨"/slider", [OscArg.int 30]⟩]

theorem get_set_button_self (l : Lights) (b : Button) (v : Brightness) :
    (l.set_button b v).get_button b = v := by
  simp [Lights.set_button, Lights.get_button]

theorem get_set_button_other (l : Lights) (b x : Button) (v : Brightness) (h : x ≠ b) :
    (l.set_button b v).get_button x = l.get_button x := by
  simp [Lights.set_button, Lights.get_button, h]

theorem buttonName_inj : ∀ a b : Button, buttonName a = buttonName b → a = b := by
  decide

theorem buttonFromDebugName_name : ∀ b : Button, buttonFromDebugName (buttonName b) = some b := by
  decide

theorem resetOne_toggles (self : String) (acc : DriverState × List (String × Int))
    (other : String) (x : Button) :
    (resetOne self acc other).1.toggles x = acc.1.toggles x ∨
      (resetOne self acc other).1.toggles x = false := by
  unfold resetOne
  split
  · left; rfl
  · cases hb : buttonFromDebugName other with
    | none => left; rfl
    | some ob =>
      by_cases hx : x = ob
      · right; simp [hx]
      · left; simp [hx]

theorem foldl_resetOne_toggles (self : String) (ms : List String) :
    ∀ (acc : DriverState × List (String × Int)) (x : Button),
      (ms.foldl (resetOne self) acc).1.toggles x = acc.1.toggles x ∨
        (ms.foldl (resetOne self) acc).1.toggles x = false := by
  induction ms with
  | nil => intro acc x; left; rfl
  | cons h t ih =>
    intro acc x
    rw [List.foldl_cons]
    rcases ih (resetOne self acc h) x with h1 | h1
    · rw [h1]; exact resetOne_toggles self acc h x
    · right; exact h1

theorem resetOne_toggles_covered (self : String) (acc : DriverState × List (String × Int))
    (other : String) (x : Button)
    (hx : buttonFromDebugName other = some x) (hne : other ≠ self) :
    (resetOne self acc other).1.toggles x = false := by
  unfold resetOne
  simp [hne, hx]

theorem foldl_resetOne_covers (self : String) (ms : List String) :
    ∀ (acc : DriverState × List (String × Int)) (x : Button),
      buttonName x ∈ ms → buttonName x ≠ self →
      (ms.foldl (resetOne self) acc).1.toggles x = false := by
  induction ms with
  | nil => intro acc x hm; exact absurd hm (List.not_mem_nil _)
  | cons h t ih =>
    intro acc x hmem hne
    rw [List.foldl_cons]
    rcases List.mem_cons.mp hmem with he | ht
    · have hcov : (resetOne self acc h).1.toggles x = false := by
        refine resetOne_toggles_covered self acc h x ?_ ?_
        · rw [← he]; exact buttonFromDebugName_name x
        · rw [← he]; exact hne
      rcases foldl_resetOne_toggles self t (resetOne self acc h) x with h1 | h1
      · rw [h1, hcov]
      · exact h1
    · exact ih (resetOne self acc h) x ht hne

theorem resetOne_lights (self : String) (acc : DriverState × List (String × Int))
    (other : String) (x : Button) :
    (resetOne self acc other).1.lights.get_button x = acc.1.lights.get_button x ∨
      (resetOne self acc other).1.lights.get_button x = Brightness.Off := by
  unfold resetOne
  split
  · left; rfl
  · cases hb : buttonFromDebugName other with
    | none => left; rfl
    | some ob =>
      by_cases hx : x = ob
      · right; simp [hx, Lights.set_button, Lights.get_button]
      · left; simp [hx, Lights.set_button, Lights.get_button]

theorem foldl_resetOne_lights (self : String) (ms : List String) :
    ∀ (acc : DriverState × List (String × Int)) (x : Button),
      (ms.foldl (resetOne self) acc).1.lights.get_button x = acc.1.lights.get_button x ∨
        (ms.foldl (resetOne self) acc).1.lights.get_button x = Brightness.Off := by
  induction ms with
  | nil => intro acc x; left; rfl
  | cons h t ih =>
    intro acc x
    rw [List.foldl_cons]
    rcases ih (resetOne self acc h) x with h1 | h1
    · rw [h1]; exact resetOne_lights self acc h x
    · right; exact h1

theorem finishStep_toggles (config : Option ButtonConfig) (name : String) (button : Button)
    (step : StepOut) :
    (finishStep config name button step).st.toggles = step.st.toggles := by
  simp only [finishStep]
  split <;> (try split) <;> rfl

theorem finishStep_screen (config : Option ButtonConfig) (name : String) (button : Button)
    (step : StepOut) :
    (finishStep config name button step).st.screen = step.st.screen := by
  simp only [finishStep]
  split <;> (try split) <;> rfl

theorem finishStep_st_none (config : Option ButtonConfig) (name : String) (button : Button)
    (step : StepOut) (h : step.target = none) :
    (finishStep config name button step).st = step.st := by
  simp only [finishStep, h]

theorem finishStep_st_some (config : Option ButtonConfig) (name : String) (button : Button)
    (step : StepOut) (v : Brightness) (h : step.target = some v) :
    (finishStep config name button step).st =
      { step.st with lights := step.st.lights.set_button button v } := by
  simp only [finishStep, h]
  simp [Lights.button_has_light]

theorem finishStep_osc (config : Option ButtonConfig) (name : String) (button : Button)
    (step : StepOut) :
    (finishStep config name button step).osc =
      step.groupEms ++ (if step.send then [(oscAddr name, step.value)] else []) := by
  simp only [finishStep]

theorem finishStep_lights_other (config : Option ButtonConfig) (name : String)
    (button : Button) (step : StepOut) (x : Button) (hx : x ≠ button) :
    (finishStep config name button step).st.lights.get_button x =
      step.st.lights.get_button x := by
  simp only [finishStep]
  split
  · split
    · exact get_set_button_other _ _ _ _ hx
    · rfl
  · rfl

theorem applyButton_modeTrigger (s : Settings) (gs : List (Nat × List String))
    (st : DriverState) (b : Button) (p : Bool)
    (hm : ((lookupConfig s (buttonName b)).map ButtonConfig.mode).getD ButtonMode.Trigger
      = ButtonMode.Trigger) :
    applyButton s gs st b p =
      finishStep (lookupConfig s (buttonName b)) (buttonName b) b
        (triggerStep st p (bnotOff (st.lights.get_button b))) := by
  simp only [applyButton, hm]

theorem applyButton_modeToggle (s : Settings) (gs : List (Nat × List String))
    (st : DriverState) (b : Button) (p : Bool)
    (hm : ((lookupConfig s (buttonName b)).map ButtonConfig.mode).getD ButtonMode.Trigger
      = ButtonMode.Toggle) :
    applyButton s gs st b p =
      finishStep (lookupConfig s (buttonName b)) (buttonName b) b
        (toggleStep (lookupConfig s (buttonName b)) gs st b (buttonName b) p
          (bnotOff (st.lights.get_button b))) := by
  simp only [applyButton, hm]

theorem triggerStep_st (st : DriverState) (p cls : Bool) :
    (triggerStep st p cls).st = st := by
  simp only [triggerStep]
  split <;> rfl

theorem toggleStep_accept (config : Option ButtonConfig) (gs : List (Nat × List String))
    (st : DriverState) (b : Button) (name : String) (cls : Bool)
    (hnb : st.lights.get_button b ≠ Brightness.Bright) :
    toggleStep config gs st b name true cls = toggleAcceptStep config gs st b name := by
  simp only [toggleStep]
  rw [if_pos ⟨by trivial, hnb⟩]
  simp [toggleAcceptStep]

theorem toggleStep_noaccept (config : Option ButtonConfig) (gs : List (Nat × List String))
    (st : DriverState) (b : Button) (name : String) (p : Bool) (cls : Bool)
    (h : ¬ (p = true ∧ st.lights.get_button b ≠ Brightness.Bright)) :
    toggleStep config gs st b name p cls =
      ⟨st, [], false, 0,
        if ¬ p = true ∧ cls = true then
          some (if st.toggles b then Brightness.Dim else Brightness.Off)
        else none⟩ := by
  simp only [toggleStep]
  rw [if_neg h]

theorem toggleAcceptStep_target (config : Option ButtonConfig)
    (gs : List (Nat × List String)) (st : DriverState) (b : Button) (name : String) :
    (toggleAcceptStep config gs st b name).target = some Brightness.Bright := by
  simp only [toggleAcceptStep]

theorem toggleAcceptStep_toggles_self (config : Option ButtonConfig)
    (gs : List (Nat × List String)) (st : DriverState) (b : Button) (name : String) :
    (toggleAcceptStep config gs st b name).st.toggles b = ! st.toggles b := by
  simp only [toggleAcceptStep]
  simp

theorem toggleAcceptStep_toggles_other (config : Option ButtonConfig)
    (gs : List (Nat × List String)) (st : DriverState) (b : Button) (name : String)
    (x : Button) (hx : x ≠ b) :
    (toggleAcceptStep config gs st b name).st.toggles x = st.toggles x ∨
      (toggleAcceptStep config gs st b name).st.toggles x = false := by
  simp only [toggleAcceptStep]
  by_cases hnw : (! st.toggles b) = true
  · simp only [hnw, if_pos]
    cases hg : config.bind ButtonConfig.group_id with
    | none => simp only [hg]; left; simp [hx]
    | some gid =>
      cases hlg : lookupGroup gs gid with
      | none => left; simp [hx, hlg]
      | some ms =>
        unfold resetMembers
        rcases foldl_resetOne_toggles name ms (st, []) x with h1 | h1
        · left; simp [hx, hlg, h1]
        · right; simp [hx, hlg, h1]
  · rw [Bool.not_eq_true] at hnw
    simp only [hnw]
    left; simp [hx]

theorem toggleAcceptStep_resets (config : Option ButtonConfig)
    (gs : List (Nat × List String)) (st : DriverState) (b : Button)
    (g : Nat) (ms : List String)
    (hoff : st.toggles b = false)
    (hgid : config.bind ButtonConfig.group_id = some g)
    (hlg : lookupGroup gs g = some ms)
    (c : Button) (hcb : c ≠ b) (hcm : buttonName c ∈ ms)
    (hcn : buttonName c ≠ buttonName b) :
    (toggleAcceptStep config gs st b (buttonName b)).st.toggles c = false := by
  simp only [toggleAcceptStep, hoff, hgid, hlg]
  simp only [Bool.not_false, if_pos]
  unfold resetMembers
  simp [hcb, foldl_resetOne_covers (buttonName b) ms (st, []) c hcm hcn]

theorem toggleAcceptStep_lights (config : Option ButtonConfig)
    (gs : List (Nat × List String)) (st : DriverState) (b : Button) (name : String)
    (x : Button) :
    (toggleAcceptStep config gs st b name).st.lights.get_button x =
        st.lights.get_button x ∨
      (toggleAcceptStep config gs st b name).st.lights.get_button x = Brightness.Off := by
  simp only [toggleAcceptStep]
  by_cases hnw : (! st.toggles b) = true
  · simp only [hnw, if_pos]
    cases hg : config.bind ButtonConfig.group_id with
    | none => simp only [hg]; left; trivial
    | some gid =>
      cases hlg : lookupGroup gs gid with
      | none => simp only [hlg]; left; trivial
      | some ms =>
        simp only [hlg]
        unfold resetMembers
        exact foldl_resetOne_lights name ms (st, []) x
  · rw [Bool.not_eq_true] at hnw
    simp only [hnw]
    left; rfl

theorem find?_eq_of_mem_nodup :
    ∀ {l : List (String × ButtonConfig)} {k : String} {v : ButtonConfig},
      (k, v) ∈ l → (l.map Prod.fst).Nodup →
      l.find? (fun p => p.1 = k) = some (k, v) := by
  intro l
  induction l with
  | nil => intro k v hm; exact absurd hm (List.not_mem_nil _)
  | cons hd tl ih =>
    intro k v hm hnd
    rcases List.mem_cons.mp hm with he | ht
    · rw [← he]
      simp [List.find?]
    · have hk : hd.1 ≠ k := by
        intro hkk
        have hmem : k ∈ tl.map Prod.fst := List.mem_map.mpr ⟨(k, v), ht, rfl⟩
        rw [List.map_cons, List.nodup_cons] at hnd
        exact hnd.1 (hkk ▸ hmem)
      rw [List.find?]
      simp only [hk, decide_eq_true_eq, if_neg]
      have := ih ht (by rw [List.map_cons, List.nodup_cons] at hnd; exact hnd.2)
      simpa [hk] using this

theorem memberOf_lookupConfig {s : Settings}
    (hnd : (s.button_configs.map Prod.fst).Nodup)
    {g : Nat} {name : String} (hm : memberOf s g name) :
    ∃ cfg, lookupConfig s name = some cfg ∧ cfg.mode = ButtonMode.Toggle ∧
      cfg.group_id = some g := by
  obtain ⟨p, hp, h1, h2, h3⟩ := hm
  refine ⟨p.2, ?_, h2, h3⟩
  unfold lookupConfig
  have hmem : (name, p.2) ∈ s.button_configs := by
    have hpe : p = (name, p.2) := by
      obtain ⟨a, b⟩ := p
      simp only at h1
      rw [h1]
    rwa [← hpe]
  rw [find?_eq_of_mem_nodup hmem hnd]
  rfl

theorem lookupGroup_cons (a : Nat) (b : List String) (r : List (Nat × List String)) (g : Nat) :
    lookupGroup ((a, b) :: r) g = if a = g then some b else lookupGroup r g := by
  by_cases h : a = g <;> simp [lookupGroup, List.find?, h]

theorem lookupGroup_addToGroup (acc : List (Nat × List String)) (g : Nat) (n : String)
    (g' : Nat) :
    lookupGroup (addToGroup acc g n) g' =
      if g = g' then some ((lookupGroup acc g').getD [] ++ [n])
      else lookupGroup acc g' := by
  induction acc with
  | nil =>
    by_cases h : g = g' <;> simp [addToGroup, lookupGroup, List.find?, h]
  | cons hd tl ih =>
    obtain ⟨gh, msh⟩ := hd
    by_cases hh : gh = g
    · subst hh
      by_cases h : gh = g'
      · subst h
        simp [addToGroup, lookupGroup_cons]
      · have hgg : ¬ (gh = g') := h
        simp [addToGroup, lookupGroup_cons, hgg]
    · have hsy : ¬ (g = gh) := fun hc => hh hc.symm
      by_cases h : gh = g'
      · subst h
        have hgg : ¬ (g = gh) := hsy
        simp [addToGroup, lookupGroup_cons, hh, hgg]
      · simp [addToGroup, lookupGroup_cons, hh, h, ih]

theorem mem_groups_foldl (l : List (String × ButtonConfig)) :
    ∀ (acc : List (Nat × List String)) (g : Nat) (n : String),
      (n ∈ (lookupGroup (l.foldl egStep acc) g).getD []) ↔
        (n ∈ (lookupGroup acc g).getD [] ∨
          ∃ p ∈ l, p.1 = n ∧ p.2.mode = ButtonMode.Toggle ∧ p.2.group_id = some g) := by
  induction l with
  | nil => intro acc g n; simp
  | cons hd tl ih =>
    intro acc g n
    rw [List.foldl_cons, ih]
    unfold egStep
    by_cases hmode : hd.2.mode = ButtonMode.Toggle
    · rw [if_pos hmode]
      cases hgid : hd.2.group_id with
      | none =>
        simp only [List.exists_mem_cons_iff, hmode, hgid]
        constructor
        · intro h; rcases h with h | h
          · left; exact h
          · right; right; exact h
        · intro h; rcases h with h | h | h
          · left; exact h
          · exact absurd h.2.2 (by simp)
          · right; exact h
      | some gd =>
        rw [lookupGroup_addToGroup]
        by_cases hg : gd = g
        · subst hg
          rw [if_pos rfl]
          simp only [Option.getD_some, List.mem_append,
            List.mem_singleton, List.exists_mem_cons_iff, hmode, hgid]
          constructor
          · intro h
            rcases h with (h | h) | h
            · left; exact h
            · right; left; exact ⟨h.symm, trivial, trivial⟩
            · right; right; exact h
          · intro h
            rcases h with h | h | h
            · left; left; exact h
            · left; right; exact h.1.symm
            · right; exact h
        · have hgg : ¬ (gd = g) := hg
          rw [if_neg hgg]
          simp only [List.exists_mem_cons_iff, hmode, hgid]
          constructor
          · intro h
            rcases h with h | h
            · left; exact h
            · right; right; exact h
          · intro h
            rcases h with h | h | h
            · left; exact h
            · exact absurd h.2.2 (by simp [hg])
            · right; exact h
    · rw [if_neg hmode]
      simp only [List.exists_mem_cons_iff]
      constructor
      · intro h
        rcases h with h | h
        · left; exact h
        · right; right; exact h
      · intro h
        rcases h with h | h | h
        · left; exact h
        · exact absurd h.2.1 hmode
        · right; exact h

theorem memberOf_groupHas {s : Settings} {g : Nat} {n : String} (hm : memberOf s g n) :
    ∃ ms, lookupGroup (exclusiveGroups s) g = some ms ∧ n ∈ ms := by
  have h : n ∈ (lookupGroup (exclusiveGroups s) g).getD [] := by
    unfold exclusiveGroups
    rw [mem_groups_foldl]
    right
    exact hm
  cases hlg : lookupGroup (exclusiveGroups s) g with
  | none => rw [hlg] at h; exact absurd h (List.not_mem_nil _)
  | some ms => exact ⟨ms, rfl, by rw [hlg] at h; exact h⟩

/-- C1, counterexample: with Play and Stop both Latching in group 1,
the sequence Play pressed, Play released, Stop pressed does NOT emit
the status messages Play=1, Stop=1, Play=0 claimed: the exclusivity
reset emits Stop=0 when Play first latches, and on the Stop press the
Play=0 reset is emitted before Stop=1. -/
theorem c1_counterexample :
    (runButtons playStopSettings c1events DriverState.init).2 ≠
      [(oscAddr "Play", 1), (oscAddr "Stop", 1), (oscAddr "Play", 0)] := by
  decide

/-- C1, amended: the same scenario emits Stop=0, Play=1, Play=0,
Stop=1 in that order (the group reset emits 0 for every other group
member whenever a member latches on, before that member's own 1), and
the final light state is Stop=Bright and Play=Off as claimed. -/
theorem c1_amended :
    (runButtons playStopSettings c1events DriverState.init).2 =
      [(oscAddr "Stop", 0), (oscAddr "Play", 1), (oscAddr "Play", 0), (oscAddr "Stop", 1)]
    ∧ (runButtons playStopSettings c1events DriverState.init).1.lights.get_button stopB =
        Brightness.Bright
    ∧ (runButtons playStopSettings c1events DriverState.init).1.lights.get_button playB =
        Brightness.Off := by
  refine ⟨by decide, by decide, by decide⟩

/-- C2: a pad frame whose second tuple carries the unrecognized event
nibble 0xF0 makes the whole scan die in the unwrap on the nibble
decode (a Rust panic): the run aborts with a decode error instead of
skipping the tuple, and the note event of the first (well-formed)
tuple is lost with it. -/
theorem c2_bad_nibble_aborts :
    processPadFrame defaultNotemaps
        (mkPadFrame [(0, 0x10, 100), (1, 0xF0, 7)]) DriverState.init =
      Except.error (PadErr.badNibble 0xF0) := by
  rfl

/-- C3: with three datagrams queued at the start of a tick, the two
sequential single-shot recv blocks of the tick consume only two of
them; the third is still queued when the tick reaches the light flush. -/
theorem c3_third_datagram_not_drained :
    (inboundPhase DriverState.init c3queue).2 =
      [Datagram.packet ⟨"/slider", [OscArg.int 30]⟩] := by
  rfl

/-- C4, counterexample: on the hardware-frame slider path the raw byte
is used without clamping, so level 250 produces a different LED bar
than level 200 (for 250 the fill index is 30: no Normal head, and
positions 0..4 stay Off). -/
theorem c4_counterexample :
    (hwSliderStep DriverState.init 250).1.lights.slider ≠
      (hwSliderStep DriverState.init 200).1.lights.slider := by
  decide

/-- C4, amended: the clamp to 0..200 exists only on the inbound slider
message path, where level 250 indeed produces a state identical to
level 200; the hardware-frame path uses the raw byte unclamped and
level 250 differs from level 200 there. -/
theorem c4_amended (st : DriverState) :
    dispatch1 st ⟨"/slider", [OscArg.int 250]⟩ = dispatch1 st ⟨"/slider", [OscArg.int 200]⟩
    ∧ (hwSliderStep DriverState.init 250).1.lights.slider ≠
        (hwSliderStep DriverState.init 200).1.lights.slider := by
  exact ⟨rfl, by decide⟩

theorem c4_witness :
    dispatch1 DriverState.init ⟨"/slider", [OscArg.int 250]⟩ =
      dispatch1 DriverState.init ⟨"/slider", [OscArg.int 200]⟩
    ∧ (hwSliderStep DriverState.init 250).1.lights.slider ≠
        (hwSliderStep DriverState.init 200).1.lights.slider :=
  c4_amended DriverState.init

/-- C9, counterexample: a NoteOn tuple with raw value 0 is emitted
with velocity 0, not with the claimed velocity max(1, 0 >>> 5) = 1:
the velocity floor of the code applies only when the raw value is
nonzero. -/
theorem c9_counterexample :
    (processPadFrame defaultNotemaps (mkPadFrame [(0, 0x10, 0)]) DriverState.init).map
        (fun r => r.2) =
      Except.ok [⟨true, 49, 0⟩]
    ∧ (0 : Nat) ≠ max 1 (0 >>> 5) := by
  exact ⟨rfl, by decide⟩

/-- C10, counterexample: a pad frame carrying the out-of-range pad
index 16 reaches the unchecked indexing of the 16-element pad array
and note map: the scan dies with an out-of-bounds access (a Rust
panic), so the error branch is reachable. -/
theorem c10_counterexample :
    processPadFrame defaultNotemaps (mkPadFrame [(16, 0x10, 100)]) DriverState.init =
      Except.error (PadErr.padIndexOOB 16) := by
  rfl


theorem replicate_get? {α : Type} (a : α) : ∀ (n i : Nat), i < n →
    (List.replicate n a).get? i = some a := by
  intro n
  induction n with
  | zero => intro i h; omega
  | succ k ih =>
    intro i h
    cases i with
    | zero => rfl
    | succ j => exact ih j (by omega)

theorem get?_eq_getD_nat : ∀ {l : List Nat} {i : Nat}, i < l.length →
    l.get? i = some (l.getD i 0) := by
  intro l
  induction l with
  | nil => intro i h; simp at h
  | cons hd tl ih =>
    intro i h
    cases i with
    | zero => rfl
    | succ j =>
      simp only [List.get?_cons_succ, List.getD_cons_succ]
      exact ih (by simpa using h)

theorem and240_16 : ∀ k : Nat, k < 16 → ((16 + k) &&& 240) = 16 := by decide

theorem and15_16 : ∀ k : Nat, k < 16 → ((16 + k) &&& 15) = k := by decide

theorem and240_80 : ∀ k : Nat, k < 16 → ((80 + k) &&& 240) = 80 := by decide

theorem and15_80 : ∀ k : Nat, k < 16 → ((80 + k) &&& 15) = k := by decide

theorem val_recompose (v : Nat) : ((v / 256) <<< 8) + v % 256 = v := by
  rw [Nat.shiftLeft_eq]
  have := Nat.div_add_mod v 256
  norm_num
  omega

theorem velocity_formula (v : Nat) :
    (if 0 < v ∧ v >>> 5 = 0 then 1 else v >>> 5) =
      if v = 0 then 0 else max 1 (v >>> 5) := by
  by_cases h0 : v = 0
  · subst h0; simp
  · have hp : 0 < v := Nat.pos_of_ne_zero h0
    by_cases h5 : v >>> 5 = 0
    · simp [h5, hp, h0]
    · simp [h5, hp, h0]
      omega

theorem mkPadFrame_single (idx code v : Nat) :
    mkPadFrame [(idx, code, v)] =
      [2, idx, code + v / 256, v % 256] ++ List.replicate 60 0 := by
  rfl

theorem padPositions_eq :
    padPositions = [1, 4, 7, 10, 13, 16, 19, 22, 25, 28, 31, 34, 37,
      40, 43, 46, 49, 52, 55, 58, 61] := by
  decide

theorem processPadAt_tail_zero (nm : List Nat) (a b c d : Nat) (st : DriverState) :
    processPadAt nm (a :: b :: c :: d :: List.replicate 60 0)
      [4, 7, 10, 13, 16, 19, 22, 25, 28, 31, 34, 37, 40, 43, 46, 49, 52, 55, 58, 61] st =
      Except.ok (st, []) := by
  rw [processPadAt]
  simp only [padTupleVal]
  split
  · rfl
  · rename_i h
    refine absurd ⟨by norm_num, rfl, ?_, ?_⟩ h
    · show (0 : Nat) &&& 240 = 0
      decide
    · show ((0 : Nat) &&& 15) <<< 8 + 0 = 0
      decide

theorem processPad_single_noteOn (notemaps : List Nat) (h16 : notemaps.length = 16)
    (idx : Nat) (hidx : idx < 16) (v : Nat) (hv : v ≤ 4095) :
    (processPadFrame notemaps (mkPadFrame [(idx, 16, v)]) DriverState.init).map
        (fun r => r.2) =
      Except.ok [⟨true, notemaps.getD idx 0, if v = 0 then 0 else max 1 (v >>> 5)⟩] := by
  have hk : v / 256 < 16 := by omega
  unfold processPadFrame
  rw [padPositions_eq, mkPadFrame_single]
  rw [processPadAt]
  simp only [padTupleVal]
  have he : byteAt ([2, idx, 16 + v / 256, v % 256] ++ List.replicate 60 0) (1 + 1) &&& 240
      = 16 := by
    show (16 + v / 256) &&& 240 = 16
    exact and240_16 _ hk
  have hvv : ((byteAt ([2, idx, 16 + v / 256, v % 256] ++ List.replicate 60 0) (1 + 1) &&& 15)
        <<< 8) + byteAt ([2, idx, 16 + v / 256, v % 256] ++ List.replicate 60 0) (1 + 2) = v := by
    show (((16 + v / 256) &&& 15) <<< 8) + v % 256 = v
    rw [and15_16 _ hk, val_recompose]
  have hb1 : byteAt ([2, idx, 16 + v / 256, v % 256] ++ List.replicate 60 0) 1 = idx := rfl
  have hgp : DriverState.init.lights.get_pad idx = some (PadColors.Off, Brightness.Off) := by
    show (List.replicate 16 ((PadColors.Off, Brightness.Off))).get? idx = _
    exact replicate_get? _ 16 idx hidx
  have hnm : notemaps.get? idx = some (notemaps.getD idx 0) :=
    get?_eq_getD_nat (by rw [h16]; exact hidx)
  simp only [he, hvv, hb1, hgp, hnm, PadEventType.fromU8]
  norm_num
  rw [processPadAt_tail_zero]
  simp [velocity_formula]
  rfl

theorem and240_48 : ∀ k : Nat, k < 16 → ((48 + k) &&& 240) = 48 := by decide

theorem and15_48 : ∀ k : Nat, k < 16 → ((48 + k) &&& 15) = k := by decide

theorem processPad_single_pressOn (notemaps : List Nat) (h16 : notemaps.length = 16)
    (idx : Nat) (hidx : idx < 16) (v : Nat) (hv : v ≤ 4095) :
    (processPadFrame notemaps (mkPadFrame [(idx, 48, v)]) DriverState.init).map
        (fun r => r.2) =
      Except.ok [⟨true, notemaps.getD idx 0, if v = 0 then 0 else max 1 (v >>> 5)⟩] := by
  have hk : v / 256 < 16 := by omega
  unfold processPadFrame
  rw [padPositions_eq, mkPadFrame_single]
  rw [processPadAt]
  simp only [padTupleVal]
  have he : byteAt ([2, idx, 48 + v / 256, v % 256] ++ List.replicate 60 0) (1 + 1) &&& 240
      = 48 := by
    show (48 + v / 256) &&& 240 = 48
    exact and240_48 _ hk
  have hvv : ((byteAt ([2, idx, 48 + v / 256, v % 256] ++ List.replicate 60 0) (1 + 1) &&& 15)
        <<< 8) + byteAt ([2, idx, 48 + v / 256, v % 256] ++ List.replicate 60 0) (1 + 2)
      = v := by
    show (((48 + v / 256) &&& 15) <<< 8) + v % 256 = v
    rw [and15_48 _ hk, val_recompose]
  have hb1 : byteAt ([2, idx, 48 + v / 256, v % 256] ++ List.replicate 60 0) 1 = idx := rfl
  have hgp : DriverState.init.lights.get_pad idx = some (PadColors.Off, Brightness.Off) := by
    show (List.replicate 16 ((PadColors.Off, Brightness.Off))).get? idx = _
    exact replicate_get? _ 16 idx hidx
  have hnm : notemaps.get? idx = some (notemaps.getD idx 0) :=
    get?_eq_getD_nat (by rw [h16]; exact hidx)
  simp only [he, hvv, hb1, hgp, hnm, PadEventType.fromU8]
  norm_num
  rw [processPadAt_tail_zero]
  simp [velocity_formula]
  rfl

theorem processPad_single_aftertouch (notemaps : List Nat) (h16 : notemaps.length = 16)
    (idx : Nat) (hidx : idx < 16) (v : Nat) (hv : v ≤ 4095) :
    (processPadFrame notemaps (mkPadFrame [(idx, 80, v)]) DriverState.init).map
        (fun r => r.2) = Except.ok [] := by
  have hk : v / 256 < 16 := by omega
  unfold processPadFrame
  rw [padPositions_eq, mkPadFrame_single]
  rw [processPadAt]
  simp only [padTupleVal]
  have he : byteAt ([2, idx, 80 + v / 256, v % 256] ++ List.replicate 60 0) (1 + 1) &&& 240
      = 80 := by
    show (80 + v / 256) &&& 240 = 80
    exact and240_80 _ hk
  have hvv : ((byteAt ([2, idx, 80 + v / 256, v % 256] ++ List.replicate 60 0) (1 + 1) &&& 15)
        <<< 8) + byteAt ([2, idx, 80 + v / 256, v % 256] ++ List.replicate 60 0) (1 + 2)
      = v := by
    show (((80 + v / 256) &&& 15) <<< 8) + v % 256 = v
    rw [and15_80 _ hk, val_recompose]
  have hb1 : byteAt ([2, idx, 80 + v / 256, v % 256] ++ List.replicate 60 0) 1 = idx := rfl
  have hgp : DriverState.init.lights.get_pad idx = some (PadColors.Off, Brightness.Off) := by
    show (List.replicate 16 ((PadColors.Off, Brightness.Off))).get? idx = _
    exact replicate_get? _ 16 idx hidx
  have hnm : notemaps.get? idx = some (notemaps.getD idx 0) :=
    get?_eq_getD_nat (by rw [h16]; exact hidx)
  simp only [he, hvv, hb1, hgp, hnm, PadEventType.fromU8]
  norm_num
  rw [processPadAt_tail_zero]
  rfl

theorem processPadAt_ok_of_good (notemaps : List Nat) (h16 : notemaps.length = 16)
    (buf : List Nat) :
    ∀ (ps : List Nat) (st : DriverState), st.lights.pads.length = 16 →
      (∀ i ∈ goodPositions buf ps, (padTupleVal buf i).1 < 16 ∧
        (PadEventType.fromU8 (padTupleVal buf i).2.1).isSome = true) →
      ∃ out, processPadAt notemaps buf ps st = Except.ok out := by
  intro ps
  induction ps with
  | nil => intro st _ _; exact ⟨(st, []), rfl⟩
  | cons i rest ih =>
    intro st hlen hgood
    rw [processPadAt]
    split
    · exact ⟨(st, []), rfl⟩
    · rename_i hterm
      have hcons : goodPositions buf (i :: rest) = i :: goodPositions buf rest := by
        rw [goodPositions]
        rw [if_neg hterm]
      obtain ⟨hidx, hsome⟩ := hgood i (by rw [hcons]; exact List.mem_cons_self _ _)
      cases hfu : PadEventType.fromU8 (padTupleVal buf i).2.1 with
      | none => rw [hfu] at hsome; simp at hsome
      | some pe =>
        simp only [hfu]
        cases hgp : st.lights.get_pad (padTupleVal buf i).1 with
        | none =>
          exfalso
          unfold Lights.get_pad at hgp
          rw [List.get?_eq_none] at hgp
          rw [hlen] at hgp
          omega
        | some pb =>
          simp only [hgp]
          cases hnm : notemaps.get? (padTupleVal buf i).1 with
          | none =>
            exfalso
            rw [List.get?_eq_none] at hnm
            rw [h16] at hnm
            omega
          | some note =>
            simp only [hnm]
            have hlen1 : ∀ b : Brightness,
                (if pb.2 ≠ b then
                  { st with lights := st.lights.set_pad (padTupleVal buf i).1 PadColors.Blue b }
                 else st).lights.pads.length = 16 := by
              intro b
              split
              · simp [Lights.set_pad, hlen]
              · exact hlen
            have hgrest : ∀ j ∈ goodPositions buf rest, (padTupleVal buf j).1 < 16 ∧
                (PadEventType.fromU8 (padTupleVal buf j).2.1).isSome = true := by
              intro j hj
              exact hgood j (by rw [hcons]; exact List.mem_cons_of_mem _ hj)
            obtain ⟨out, hout⟩ := ih _ (hlen1 _) hgrest
            rw [hout]
            exact ⟨_, rfl⟩

theorem applyButton_toggles_frame (s : Settings) (gs : List (Nat × List String))
    (st : DriverState) (b : Button) (p : Bool) (x : Button) (hx : x ≠ b) :
    (applyButton s gs st b p).st.toggles x = st.toggles x ∨
      (applyButton s gs st b p).st.toggles x = false := by
  cases hm : ((lookupConfig s (buttonName b)).map ButtonConfig.mode).getD ButtonMode.Trigger
  case Trigger =>
    rw [applyButton_modeTrigger s gs st b p hm, finishStep_toggles, triggerStep_st]
    left; rfl
  case Toggle =>
    rw [applyButton_modeToggle s gs st b p hm, finishStep_toggles]
    by_cases hacc : (p = true ∧ st.lights.get_button b ≠ Brightness.Bright)
    · obtain ⟨hp, hnb⟩ := hacc
      subst hp
      rw [toggleStep_accept _ _ _ _ _ _ hnb]
      exact toggleAcceptStep_toggles_other _ _ _ _ _ x hx
    · rw [toggleStep_noaccept _ _ _ _ _ _ _ hacc]
      left; rfl

theorem applyButton_lights_frame (s : Settings) (gs : List (Nat × List String))
    (st : DriverState) (b : Button) (p : Bool) (x : Button) (hx : x ≠ b) :
    (applyButton s gs st b p).st.lights.get_button x = st.lights.get_button x ∨
      (applyButton s gs st b p).st.lights.get_button x = Brightness.Off := by
  cases hm : ((lookupConfig s (buttonName b)).map ButtonConfig.mode).getD ButtonMode.Trigger
  case Trigger =>
    rw [applyButton_modeTrigger s gs st b p hm, finishStep_lights_other _ _ _ _ x hx,
      triggerStep_st]
    left; rfl
  case Toggle =>
    rw [applyButton_modeToggle s gs st b p hm, finishStep_lights_other _ _ _ _ x hx]
    by_cases hacc : (p = true ∧ st.lights.get_button b ≠ Brightness.Bright)
    · obtain ⟨hp, hnb⟩ := hacc
      subst hp
      rw [toggleStep_accept _ _ _ _ _ _ hnb]
      exact toggleAcceptStep_lights _ _ _ _ _ x
    · rw [toggleStep_noaccept _ _ _ _ _ _ _ hacc]
      left; rfl

theorem modeExpr_toggle_of_config {s : Settings} {b : Button} {cfg : ButtonConfig}
    (hcfg : lookupConfig s (buttonName b) = some cfg)
    (hmode : cfg.mode = ButtonMode.Toggle) :
    ((lookupConfig s (buttonName b)).map ButtonConfig.mode).getD ButtonMode.Trigger
      = ButtonMode.Toggle := by
  rw [hcfg]
  simp [hmode]

theorem applyButton_accept_toggles_self (s : Settings) (gs : List (Nat × List String))
    (st : DriverState) (b : Button) (cfg : ButtonConfig)
    (hcfg : lookupConfig s (buttonName b) = some cfg)
    (hmode : cfg.mode = ButtonMode.Toggle)
    (hnb : st.lights.get_button b ≠ Brightness.Bright) :
    (applyButton s gs st b true).st.toggles b = ! st.toggles b := by
  rw [applyButton_modeToggle s gs st b true (modeExpr_toggle_of_config hcfg hmode),
    finishStep_toggles, toggleStep_accept _ _ _ _ _ _ hnb,
    toggleAcceptStep_toggles_self]

theorem applyButton_accept_light_self (s : Settings) (gs : List (Nat × List String))
    (st : DriverState) (b : Button) (cfg : ButtonConfig)
    (hcfg : lookupConfig s (buttonName b) = some cfg)
    (hmode : cfg.mode = ButtonMode.Toggle)
    (hnb : st.lights.get_button b ≠ Brightness.Bright) :
    (applyButton s gs st b true).st.lights.get_button b = Brightness.Bright := by
  rw [applyButton_modeToggle s gs st b true (modeExpr_toggle_of_config hcfg hmode),
    toggleStep_accept _ _ _ _ _ _ hnb,
    finishStep_st_some _ _ _ _ _ (toggleAcceptStep_target _ _ _ _ _)]
  exact get_set_button_self _ _ _

theorem applyButton_noaccept_toggles (s : Settings) (gs : List (Nat × List String))
    (st : DriverState) (b : Button) (p : Bool) (cfg : ButtonConfig)
    (hcfg : lookupConfig s (buttonName b) = some cfg)
    (hmode : cfg.mode = ButtonMode.Toggle)
    (h : ¬ (p = true ∧ st.lights.get_button b ≠ Brightness.Bright)) :
    (applyButton s gs st b p).st.toggles = st.toggles := by
  rw [applyButton_modeToggle s gs st b p (modeExpr_toggle_of_config hcfg hmode),
    finishStep_toggles, toggleStep_noaccept _ _ _ _ _ _ _ h]

theorem applyButton_trigger_toggles (s : Settings) (gs : List (Nat × List String))
    (st : DriverState) (b : Button) (p : Bool)
    (hm : ((lookupConfig s (buttonName b)).map ButtonConfig.mode).getD ButtonMode.Trigger
      = ButtonMode.Trigger) :
    (applyButton s gs st b p).st.toggles = st.toggles := by
  rw [applyButton_modeTrigger s gs st b p hm, finishStep_toggles, triggerStep_st]

theorem applyButton_accept_resets (s : Settings) (st : DriverState) (b : Button)
    (g : Nat) (cfg : ButtonConfig)
    (hcfg : lookupConfig s (buttonName b) = some cfg)
    (hmode : cfg.mode = ButtonMode.Toggle)
    (hgid : cfg.group_id = some g)
    (hnb : st.lights.get_button b ≠ Brightness.Bright)
    (hoff : st.toggles b = false)
    (c : Button) (hcb : c ≠ b) (hcm : memberOf s g (buttonName c)) :
    (applyButton s (exclusiveGroups s) st b true).st.toggles c = false := by
  obtain ⟨ms, hlg, hmem⟩ := memberOf_groupHas hcm
  rw [applyButton_modeToggle s _ st b true (modeExpr_toggle_of_config hcfg hmode),
    finishStep_toggles, toggleStep_accept _ _ _ _ _ _ hnb]
  refine toggleAcceptStep_resets _ _ _ _ g ms hoff ?_ hlg c hcb hmem ?_
  · rw [hcfg]
    simp [hgid]
  · intro he
    exact hcb (buttonName_inj _ _ he)

theorem applyButton_preserves_groupInv (s : Settings)
    (hnd : (s.button_configs.map Prod.fst).Nodup) (g : Nat)
    (st : DriverState) (hinv : groupInv s g st) (b : Button) (p : Bool) :
    groupInv s g (applyButton s (exclusiveGroups s) st b p).st := by
  intro b1 b2 hm1 hm2 ht1 ht2
  have hframe : ∀ x : Button, x ≠ b →
      (applyButton s (exclusiveGroups s) st b p).st.toggles x = true →
      st.toggles x = true := by
    intro x hx hxt
    rcases applyButton_toggles_frame s (exclusiveGroups s) st b p x hx with h | h
    · rw [← h]; exact hxt
    · rw [h] at hxt; exact absurd hxt (by simp)
  by_cases hb1 : b1 = b <;> by_cases hb2 : b2 = b
  · rw [hb1, hb2]
  · subst hb1
    obtain ⟨cfg, hcfg, hmode, hgid⟩ := memberOf_lookupConfig hnd hm1
    have ht2h := hframe b2 hb2 ht2
    by_cases hacc : (p = true ∧ st.lights.get_button b1 ≠ Brightness.Bright)
    · by_cases hoff : st.toggles b1 = false
      · obtain ⟨hp, hnb⟩ := hacc
        subst hp
        have := applyButton_accept_resets s st b1 g cfg hcfg hmode hgid hnb hoff b2 hb2 hm2
        rw [this] at ht2
        exact absurd ht2 (by simp)
      · rw [Bool.not_eq_false] at hoff
        exact hinv b1 b2 hm1 hm2 hoff ht2h
    · have := applyButton_noaccept_toggles s (exclusiveGroups s) st b1 p cfg hcfg hmode hacc
      rw [this] at ht1
      exact hinv b1 b2 hm1 hm2 ht1 ht2h
  · subst hb2
    obtain ⟨cfg, hcfg, hmode, hgid⟩ := memberOf_lookupConfig hnd hm2
    have ht1h := hframe b1 hb1 ht1
    by_cases hacc : (p = true ∧ st.lights.get_button b2 ≠ Brightness.Bright)
    · by_cases hoff : st.toggles b2 = false
      · obtain ⟨hp, hnb⟩ := hacc
        subst hp
        have := applyButton_accept_resets s st b2 g cfg hcfg hmode hgid hnb hoff b1 hb1 hm1
        rw [this] at ht1
        exact absurd ht1 (by simp)
      · rw [Bool.not_eq_false] at hoff
        exact hinv b1 b2 hm1 hm2 ht1h hoff
    · have := applyButton_noaccept_toggles s (exclusiveGroups s) st b2 p cfg hcfg hmode hacc
      rw [this] at ht2
      exact hinv b1 b2 hm1 hm2 ht1h ht2
  · exact hinv b1 b2 hm1 hm2 (hframe b1 hb1 ht1) (hframe b2 hb2 ht2)

theorem runButtons_preserves_groupInv (s : Settings)
    (hnd : (s.button_configs.map Prod.fst).Nodup) (g : Nat) :
    ∀ (evs : List (Button × Bool)) (st : DriverState),
      groupInv s g st → groupInv s g (runButtons s evs st).1 := by
  intro evs
  induction evs with
  | nil => intro st h; exact h
  | cons e t ih =>
    intro st h
    exact ih _ (applyButton_preserves_groupInv s hnd g st h e.1 e.2)

theorem activation_exact (s : Settings) (g : Nat) (b : Button) (cfgb : ButtonConfig)
    (hcfgb : lookupConfig s (buttonName b) = some cfgb)
    (hmodeb : cfgb.mode = ButtonMode.Toggle)
    (hgidb : cfgb.group_id = some g)
    (st1 : DriverState)
    (hlb1 : st1.lights.get_button b ≠ Brightness.Bright)
    (htb1 : st1.toggles b = false)
    (c : Button) (hmc : memberOf s g (buttonName c)) :
    ((applyButton s (exclusiveGroups s) st1 b true).st.toggles c = true ↔ c = b) := by
  by_cases hcb : c = b
  · subst hcb
    rw [applyButton_accept_toggles_self s (exclusiveGroups s) st1 c cfgb hcfgb hmodeb hlb1,
      htb1]
    simp
  · constructor
    · intro hct
      have := applyButton_accept_resets s st1 b g cfgb hcfgb hmodeb hgidb hlb1 htb1 c hcb hmc
      rw [this] at hct
      exact absurd hct (by simp)
    · intro h; exact absurd h hcb

theorem bnotOff_eq_true {v : Brightness} (h : v ≠ Brightness.Off) : bnotOff v = true := by
  simp [bnotOff, h]

theorem finishStep_inert (config : Option ButtonConfig) (name : String) (button : Button)
    (st' : DriverState) :
    finishStep config name button ⟨st', [], false, 0, none⟩ = ⟨st', [], []⟩ := by
  simp only [finishStep]
  cases hcc : config.bind ButtonConfig.cc <;> simp

theorem finishStep_cc_nosend (config : Option ButtonConfig) (name : String)
    (button : Button) (step : StepOut) (h : step.send = false) :
    (finishStep config name button step).cc = [] := by
  simp only [finishStep, h]
  cases hcc : config.bind ButtonConfig.cc <;> simp

theorem applyButton_trigger_held (s : Settings) (gs : List (Nat × List String))
    (st : DriverState) (b : Button)
    (hm : ((lookupConfig s (buttonName b)).map ButtonConfig.mode).getD ButtonMode.Trigger
      = ButtonMode.Trigger)
    (hon : st.lights.get_button b ≠ Brightness.Off) :
    applyButton s gs st b true = ⟨st, [], []⟩ := by
  rw [applyButton_modeTrigger s gs st b true hm]
  have hts : triggerStep st true (bnotOff (st.lights.get_button b)) =
      ⟨st, [], false, 0, none⟩ := by
    simp [triggerStep, bnotOff_eq_true hon]
  rw [hts, finishStep_inert]

theorem triggerStep_press (st : DriverState) :
    triggerStep st true false = ⟨st, [], true, 1, some Brightness.Normal⟩ := by
  simp [triggerStep]

theorem triggerStep_release (st : DriverState) :
    triggerStep st false true = ⟨st, [], true, 0, some Brightness.Off⟩ := by
  simp [triggerStep]

theorem applyButton_trigger_press_proj (s : Settings) (gs : List (Nat × List String))
    (st : DriverState) (b : Button)
    (hm : ((lookupConfig s (buttonName b)).map ButtonConfig.mode).getD ButtonMode.Trigger
      = ButtonMode.Trigger)
    (hoff : st.lights.get_button b = Brightness.Off) :
    (applyButton s gs st b true).osc = [(oscAddr (buttonName b), 1)]
    ∧ (applyButton s gs st b true).st =
      { st with lights := st.lights.set_button b Brightness.Normal } := by
  rw [applyButton_modeTrigger s gs st b true hm]
  have hcls : bnotOff (st.lights.get_button b) = false := by simp [hoff, bnotOff]
  rw [hcls, triggerStep_press]
  constructor
  · rw [finishStep_osc]
    simp
  · rw [finishStep_st_some _ _ _ _ Brightness.Normal rfl]

theorem applyButton_trigger_release_proj (s : Settings) (gs : List (Nat × List String))
    (st : DriverState) (b : Button)
    (hm : ((lookupConfig s (buttonName b)).map ButtonConfig.mode).getD ButtonMode.Trigger
      = ButtonMode.Trigger)
    (hon : st.lights.get_button b ≠ Brightness.Off) :
    (applyButton s gs st b false).osc = [(oscAddr (buttonName b), 0)]
    ∧ (applyButton s gs st b false).st =
      { st with lights := st.lights.set_button b Brightness.Off } := by
  rw [applyButton_modeTrigger s gs st b false hm]
  rw [bnotOff_eq_true hon, triggerStep_release]
  constructor
  · rw [finishStep_osc]
    simp
  · rw [finishStep_st_some _ _ _ _ Brightness.Off rfl]

theorem runButtons_held (s : Settings) (b : Button)
    (hm : ((lookupConfig s (buttonName b)).map ButtonConfig.mode).getD ButtonMode.Trigger
      = ButtonMode.Trigger) (n : Nat)
    (st1 : DriverState) (hon : st1.lights.get_button b ≠ Brightness.Off)
    (evs : List (Button × Bool)) :
    runButtons s (List.replicate n (b, true) ++ evs) st1 = runButtons s evs st1 := by
  induction n with
  | zero => simp
  | succ k ih =>
    rw [List.replicate_succ, List.cons_append, runButtons]
    rw [applyButton_trigger_held s (exclusiveGroups s) st1 b hm hon]
    simpa using ih

/-- C5: for every configuration with unique config keys and every
exclusivity group g, the at-most-one-latched invariant holds after
every sequence of observed button transitions from the all-off initial
state; and activating member A and then member B (two accepted latch
presses from the initial state) leaves exactly B latched among the
members of g. -/
theorem c5_group_exclusivity (s : Settings)
    (hnd : (s.button_configs.map Prod.fst).Nodup) (g : Nat) :
    (∀ evs : List (Button × Bool), groupInv s g (runButtons s evs DriverState.init).1)
    ∧ (∀ a b : Button, a ≠ b →
        memberOf s g (buttonName a) → memberOf s g (buttonName b) →
        ∀ c : Button, memberOf s g (buttonName c) →
          ((runButtons s [(a, true), (b, true)] DriverState.init).1.toggles c = true ↔
            c = b)) := by
  constructor
  · intro evs
    refine runButtons_preserves_groupInv s hnd g evs DriverState.init ?_
    intro b1 b2 _ _ ht1 _
    exact absurd ht1 (by simp [DriverState.init])
  · intro a b hab hma hmb c hmc
    obtain ⟨cfgb, hcfgb, hmodeb, hgidb⟩ := memberOf_lookupConfig hnd hmb
    have hba : b ≠ a := fun h => hab h.symm
    have hrun : (runButtons s [(a, true), (b, true)] DriverState.init).1 =
        (applyButton s (exclusiveGroups s)
          (applyButton s (exclusiveGroups s) DriverState.init a true).st b true).st := by
      simp [runButtons]
    have hlb1 : (applyButton s (exclusiveGroups s) DriverState.init a true).st.lights.get_button b
        ≠ Brightness.Bright := by
      rcases applyButton_lights_frame s (exclusiveGroups s) DriverState.init a true b hba
        with h | h
      · rw [h]; simp [DriverState.init, Lights.new, Lights.get_button]
      · rw [h]; simp
    have htb1 : (applyButton s (exclusiveGroups s) DriverState.init a true).st.toggles b
        = false := by
      rcases applyButton_toggles_frame s (exclusiveGroups s) DriverState.init a true b hba
        with h | h
      · rw [h]; rfl
      · rw [h]
    rw [hrun]
    exact activation_exact s g b cfgb hcfgb hmodeb hgidb _ hlb1 htb1 c hmc

theorem c5_witness :
    ((playStopSettings.button_configs.map Prod.fst).Nodup)
    ∧ ((∀ evs : List (Button × Bool),
          groupInv playStopSettings 1 (runButtons playStopSettings evs DriverState.init).1)
       ∧ (∀ a b : Button, a ≠ b →
          memberOf playStopSettings 1 (buttonName a) →
          memberOf playStopSettings 1 (buttonName b) →
          ∀ c : Button, memberOf playStopSettings 1 (buttonName c) →
            ((runButtons playStopSettings [(a, true), (b, true)]
                DriverState.init).1.toggles c = true ↔ c = b))) :=
  ⟨by decide, c5_group_exclusivity playStopSettings (by decide) 1⟩

/-- C6: for every control configured (or defaulted) to Trigger
(Momentary) mode whose light is Off, a press tick followed by any
number of held ticks and a release tick emits exactly the status values
1 then 0 for that control, with no emission in between, and leaves the
control's light Off. -/
theorem c6_momentary_press_release (s : Settings) (b : Button) (n : Nat) (st : DriverState)
    (hm : ((lookupConfig s (buttonName b)).map ButtonConfig.mode).getD ButtonMode.Trigger
      = ButtonMode.Trigger)
    (hoff : st.lights.get_button b = Brightness.Off) :
    (runButtons s ((b, true) :: (List.replicate n (b, true) ++ [(b, false)])) st).2 =
      [(oscAddr (buttonName b), 1), (oscAddr (buttonName b), 0)]
    ∧ (runButtons s ((b, true) :: (List.replicate n (b, true) ++ [(b, false)])) st).1.lights.get_button b =
      Brightness.Off := by
  obtain ⟨hosc1, hst1⟩ := applyButton_trigger_press_proj s (exclusiveGroups s) st b hm hoff
  have hon : (applyButton s (exclusiveGroups s) st b true).st.lights.get_button b
      ≠ Brightness.Off := by
    rw [hst1]
    show (st.lights.set_button b Brightness.Normal).get_button b ≠ Brightness.Off
    rw [get_set_button_self]
    simp
  obtain ⟨hosc2, hst2⟩ := applyButton_trigger_release_proj s (exclusiveGroups s)
    (applyButton s (exclusiveGroups s) st b true).st b hm hon
  have hrun : runButtons s ((b, true) :: (List.replicate n (b, true) ++ [(b, false)])) st =
      ((runButtons s [(b, false)] (applyButton s (exclusiveGroups s) st b true).st).1,
        (applyButton s (exclusiveGroups s) st b true).osc ++
          (runButtons s [(b, false)] (applyButton s (exclusiveGroups s) st b true).st).2) := by
    rw [runButtons]
    rw [runButtons_held s b hm n _ hon]
  rw [hrun]
  constructor
  · rw [hosc1]
    have : (runButtons s [(b, false)] (applyButton s (exclusiveGroups s) st b true).st).2 =
        [(oscAddr (buttonName b), 0)] := by
      rw [runButtons, runButtons]
      rw [hosc2]
      simp
    rw [this]
    rfl
  · rw [runButtons, runButtons]
    simp only []
    rw [hst2]
    show ((applyButton s (exclusiveGroups s) st b true).st.lights.set_button b
      Brightness.Off).get_button b = Brightness.Off
    rw [get_set_button_self]

theorem c6_witness :
    (((lookupConfig triggerSettings (buttonName playB)).map ButtonConfig.mode).getD
        ButtonMode.Trigger = ButtonMode.Trigger)
    ∧ (DriverState.init.lights.get_button playB = Brightness.Off)
    ∧ ((runButtons triggerSettings
          ((playB, true) :: (List.replicate 2 (playB, true) ++ [(playB, false)]))
          DriverState.init).2 =
        [(oscAddr (buttonName playB), 1), (oscAddr (buttonName playB), 0)]
      ∧ (runButtons triggerSettings
          ((playB, true) :: (List.replicate 2 (playB, true) ++ [(playB, false)]))
          DriverState.init).1.lights.get_button playB = Brightness.Off) :=
  ⟨by decide, by decide,
    c6_momentary_press_release triggerSettings playB 2 DriverState.init (by decide) (by decide)⟩

/-- C7: for every control configured to Toggle (Latching) mode: a press
observed while the light is Bright is ignored entirely (no latch flip,
no emission, no state change), an accepted press leaves the light
Bright (so a held button is ignored until release), and a release never
emits and, when the light is not Off, sets it to Dim when the stored
boolean is true and to Off otherwise. -/
theorem c7_latching_debounce (s : Settings) (b : Button) (st : DriverState)
    (cfg : ButtonConfig)
    (hcfg : lookupConfig s (buttonName b) = some cfg)
    (hmode : cfg.mode = ButtonMode.Toggle) :
    (st.lights.get_button b = Brightness.Bright →
      applyButton s (exclusiveGroups s) st b true = ⟨st, [], []⟩)
    ∧ (st.lights.get_button b ≠ Brightness.Bright →
      (applyButton s (exclusiveGroups s) st b true).st.lights.get_button b =
        Brightness.Bright)
    ∧ (applyButton s (exclusiveGroups s) st b false).osc = []
    ∧ (applyButton s (exclusiveGroups s) st b false).cc = []
    ∧ (applyButton s (exclusiveGroups s) st b false).st.toggles = st.toggles
    ∧ (st.lights.get_button b ≠ Brightness.Off →
      (applyButton s (exclusiveGroups s) st b false).st.lights.get_button b =
        (if st.toggles b then Brightness.Dim else Brightness.Off)) := by
  have hmx := modeExpr_toggle_of_config hcfg hmode
  have hrel : toggleStep (lookupConfig s (buttonName b)) (exclusiveGroups s) st b
      (buttonName b) false (bnotOff (st.lights.get_button b)) =
      ⟨st, [], false, 0,
        if ¬ false = true ∧ bnotOff (st.lights.get_button b) = true then
          some (if st.toggles b then Brightness.Dim else Brightness.Off)
        else none⟩ :=
    toggleStep_noaccept _ _ _ _ _ _ _ (by simp)
  refine ⟨?_, ?_, ?_, ?_, ?_, ?_⟩
  · intro hbr
    rw [applyButton_modeToggle s _ st b true hmx,
      toggleStep_noaccept _ _ _ _ _ _ _ (by intro h; exact h.2 hbr)]
    have : (if ¬ true = true ∧ bnotOff (st.lights.get_button b) = true then
        some (if st.toggles b then Brightness.Dim else Brightness.Off)
      else (none : Option Brightness)) = none := by simp
    rw [this, finishStep_inert]
  · intro hnb
    exact applyButton_accept_light_self s _ st b cfg hcfg hmode hnb
  · rw [applyButton_modeToggle s _ st b false hmx, hrel, finishStep_osc]
    simp
  · rw [applyButton_modeToggle s _ st b false hmx, hrel]
    exact finishStep_cc_nosend _ _ _ _ rfl
  · rw [applyButton_modeToggle s _ st b false hmx, hrel, finishStep_toggles]
  · intro hnoff
    rw [applyButton_modeToggle s _ st b false hmx, hrel]
    have hcls : bnotOff (st.lights.get_button b) = true := bnotOff_eq_true hnoff
    have : (if ¬ false = true ∧ bnotOff (st.lights.get_button b) = true then
        some (if st.toggles b then Brightness.Dim else Brightness.Off)
      else (none : Option Brightness)) =
        some (if st.toggles b then Brightness.Dim else Brightness.Off) := by
      simp [hcls]
    rw [show (⟨st, [], false, 0,
        if ¬ false = true ∧ bnotOff (st.lights.get_button b) = true then
          some (if st.toggles b then Brightness.Dim else Brightness.Off)
        else none⟩ : StepOut) =
      ⟨st, [], false, 0,
        some (if st.toggles b then Brightness.Dim else Brightness.Off)⟩ from by rw [this]]
    rw [finishStep_st_some _ _ _ _ _ rfl]
    exact get_set_button_self _ _ _

theorem c7_witness :
    (lookupConfig playStopSettings (buttonName playB) =
      some ⟨ButtonMode.Toggle, some 1, none⟩)
    ∧ ((DriverState.init.lights.get_button playB = Brightness.Bright →
        applyButton playStopSettings (exclusiveGroups playStopSettings)
          DriverState.init playB true = ⟨DriverState.init, [], []⟩)
      ∧ (DriverState.init.lights.get_button playB ≠ Brightness.Bright →
        (applyButton playStopSettings (exclusiveGroups playStopSettings)
          DriverState.init playB true).st.lights.get_button playB = Brightness.Bright)
      ∧ (applyButton playStopSettings (exclusiveGroups playStopSettings)
          DriverState.init playB false).osc = []
      ∧ (applyButton playStopSettings (exclusiveGroups playStopSettings)
          DriverState.init playB false).cc = []
      ∧ (applyButton playStopSettings (exclusiveGroups playStopSettings)
          DriverState.init playB false).st.toggles = DriverState.init.toggles
      ∧ (DriverState.init.lights.get_button playB ≠ Brightness.Off →
        (applyButton playStopSettings (exclusiveGroups playStopSettings)
          DriverState.init playB false).st.lights.get_button playB =
          (if DriverState.init.toggles playB then Brightness.Dim else Brightness.Off))) :=
  ⟨by decide,
    c7_latching_debounce playStopSettings playB DriverState.init
      ⟨ButtonMode.Toggle, some 1, none⟩ (by decide) rfl⟩

set_option maxRecDepth 10000 in
theorem sliderBar_formula_all : ∀ L : Nat, L < 201 → 1 ≤ L →
    (hwSliderStep DriverState.init L).1.lights.slider =
      (List.range 25).map (fun p => sliderLed (sliderCnt (L : Int)) p) := by
  decide

/-- C8: for every slider level L in 1..200 the hardware slider handler
produces exactly the 25-element bar dictated by the formula
cnt = ((L - 1 + 5) * 25) / 200 - 1 with position p Normal when
cnt - p = 0, Dim when cnt - p is in 1..25, else Off; level 200 puts
the bright head at position 24 with the tail fully filled, and level 1
yields the all-off array the formula dictates (cnt = -1). -/
theorem c8_slider_formula (L : Nat) (h1 : 1 ≤ L) (h2 : L ≤ 200) :
    (hwSliderStep DriverState.init L).1.lights.slider =
      (List.range 25).map (fun p => sliderLed (sliderCnt (L : Int)) p)
    ∧ (hwSliderStep DriverState.init 200).1.lights.slider =
      List.replicate 24 Brightness.Dim ++ [Brightness.Normal]
    ∧ (hwSliderStep DriverState.init 1).1.lights.slider =
      List.replicate 25 Brightness.Off := by
  exact ⟨sliderBar_formula_all L (by omega) h1, by decide, by decide⟩

theorem c8_witness :
    (1 ≤ 42 ∧ 42 ≤ 200)
    ∧ ((hwSliderStep DriverState.init 42).1.lights.slider =
        (List.range 25).map (fun p => sliderLed (sliderCnt ((42 : Nat) : Int)) p)
      ∧ (hwSliderStep DriverState.init 200).1.lights.slider =
        List.replicate 24 Brightness.Dim ++ [Brightness.Normal]
      ∧ (hwSliderStep DriverState.init 1).1.lights.slider =
        List.replicate 25 Brightness.Off) :=
  ⟨⟨by decide, by decide⟩, c8_slider_formula 42 (by decide) (by decide)⟩

/-- C9, amended: for a pad frame carrying one NoteOn or PressOn tuple
with pad index below 16 and 12-bit value v, the emitted note-on uses
the note map entry of the pad and velocity v >>> 5 floored to 1 only
when v is nonzero (equal to max(1, v >>> 5) for v in 1..4095, but 0
when v = 0); every v in 1..31 yields velocity exactly 1; an Aftertouch
tuple produces no note event. -/
theorem c9_amended (notemaps : List Nat) (h16 : notemaps.length = 16)
    (idx : Nat) (hidx : idx < 16) (v : Nat) (hv : v ≤ 4095) :
    ((processPadFrame notemaps (mkPadFrame [(idx, 16, v)]) DriverState.init).map
        (fun r => r.2) =
      Except.ok [⟨true, notemaps.getD idx 0, if v = 0 then 0 else max 1 (v >>> 5)⟩])
    ∧ ((processPadFrame notemaps (mkPadFrame [(idx, 48, v)]) DriverState.init).map
        (fun r => r.2) =
      Except.ok [⟨true, notemaps.getD idx 0, if v = 0 then 0 else max 1 (v >>> 5)⟩])
    ∧ (1 ≤ v → v ≤ 31 → (if v = 0 then 0 else max 1 (v >>> 5)) = (1 : Nat))
    ∧ ((processPadFrame notemaps (mkPadFrame [(idx, 80, v)]) DriverState.init).map
        (fun r => r.2) = Except.ok []) := by
  refine ⟨processPad_single_noteOn notemaps h16 idx hidx v hv,
    processPad_single_pressOn notemaps h16 idx hidx v hv, ?_,
    processPad_single_aftertouch notemaps h16 idx hidx v hv⟩
  intro hv1 hv31
  have h5 : v >>> 5 = 0 := by
    rw [Nat.shiftRight_eq_div_pow]
    omega
  have h0 : v ≠ 0 := by omega
  simp [h0, h5]

theorem c9_witness :
    (defaultNotemaps.length = 16 ∧ 3 < 16 ∧ 17 ≤ 4095)
    ∧ (((processPadFrame defaultNotemaps (mkPadFrame [(3, 16, 17)]) DriverState.init).map
          (fun r => r.2) =
        Except.ok [⟨true, defaultNotemaps.getD 3 0, if 17 = 0 then 0 else max 1 (17 >>> 5)⟩])
      ∧ ((processPadFrame defaultNotemaps (mkPadFrame [(3, 48, 17)]) DriverState.init).map
          (fun r => r.2) =
        Except.ok [⟨true, defaultNotemaps.getD 3 0, if 17 = 0 then 0 else max 1 (17 >>> 5)⟩])
      ∧ (1 ≤ 17 → 17 ≤ 31 → (if 17 = 0 then 0 else max 1 (17 >>> 5)) = (1 : Nat))
      ∧ ((processPadFrame defaultNotemaps (mkPadFrame [(3, 80, 17)]) DriverState.init).map
          (fun r => r.2) = Except.ok [])) :=
  ⟨⟨by decide, by decide, by decide⟩,
    c9_amended defaultNotemaps (by decide) 3 (by decide) 17 (by decide)⟩

/-- C10, amended: the pad index of each processed tuple is used
unchecked, so in-bounds access is guaranteed exactly when every
processed (non-terminator) tuple of the frame has pad index below 16
and a recognized event nibble: under that condition the scan completes
without any error; a tuple with index 16 or more reaches the
out-of-bounds access (see the counterexample). -/
theorem c10_amended (notemaps : List Nat) (h16 : notemaps.length = 16) (buf : List Nat)
    (hgood : ∀ i ∈ processedPositions buf, (padTupleVal buf i).1 < 16 ∧
      (PadEventType.fromU8 (padTupleVal buf i).2.1).isSome = true) :
    ∃ out, processPadFrame notemaps buf DriverState.init = Except.ok out := by
  unfold processPadFrame
  refine processPadAt_ok_of_good notemaps h16 buf padPositions DriverState.init ?_ hgood
  simp [DriverState.init, Lights.new]

theorem c10_witness :
    (defaultNotemaps.length = 16
      ∧ (∀ i ∈ processedPositions (mkPadFrame [(2, 16, 300)]),
          (padTupleVal (mkPadFrame [(2, 16, 300)]) i).1 < 16 ∧
          (PadEventType.fromU8 (padTupleVal (mkPadFrame [(2, 16, 300)]) i).2.1).isSome = true))
    ∧ (∃ out, processPadFrame defaultNotemaps (mkPadFrame [(2, 16, 300)]) DriverState.init =
        Except.ok out) :=
  ⟨⟨by decide, by decide⟩,
    c10_amended defaultNotemaps (by decide) (mkPadFrame [(2, 16, 300)]) (by decide)⟩

end Maschine
